import Mathlib

/-!
Verification of the MTG-Proxyshop data-resolution pipeline.

This file gives a shallow embedding of the three source files
`src/utils/scryfall.py`, `proxyshop/render.py` and `plugins/loader.py`
(the parts the verified properties touch), and proves or refutes the
spec's claims about them.

Modelling conventions:
* Python dictionaries are association lists (`JDict`), with first-match
  lookup and replace-in-place insertion, mirroring CPython semantics for
  dicts with unique keys.
* Raised Python exceptions become `Except` errors; network I/O becomes
  explicit environment functions supplying the raw responses.
* The `ratelimit` decorator only delays calls and never changes a value,
  so it is modelled as the identity on results.
-/

set_option autoImplicit false

namespace Proxyshop

/-! ## Request client (`handle_final_exception`, `handle_request_failure`) -/

/-- Python exception classes, split by what `backoff.on_exception` is
configured to retry: `requests.exceptions.RequestException` versus any
other `Exception`. -/
inductive Exn where
  | request : Exn
  | other : Exn
deriving DecidableEq

/-- The typed failure value from `src.utils.exceptions.ScryfallError`.
The source constructs it either with diagnostic context
(`ScryfallError(url, name=..., code=..., number=..., lang=...)`) or with
no arguments (`ScryfallError()`) in `handle_final_exception`. -/
structure ScryfallError where
  url : Option String := none
  name : Option String := none
  code : Option String := none
  number : Option String := none
  lang : Option String := none
deriving DecidableEq

/-- The dynamic result type of a wrapped request function: either a normal
value (card dict, list, filename string, `None`, ...) or the typed
`ScryfallError` value. -/
inductive WrapResult (β : Type) where
  | val : β → WrapResult β
  | scryError : ScryfallError → WrapResult β
deriving DecidableEq

/-- The `fail_response` argument of `handle_request_failure` /
`handle_final_exception`: the string `'error'` (requesting a formatted
`ScryfallError`), or a plain fallback value (`[]`, `{}`, `None`). -/
inductive FailResponse (β : Type) where
  | errorCfg : FailResponse β
  | value : WrapResult β → FailResponse β
deriving DecidableEq

/-- The value `handle_final_exception` returns on the exception path:
`ScryfallError()` if `fail_response == 'error'`, else `fail_response`. -/
def failValue {β : Type} (fail : FailResponse β) : WrapResult β :=
  match fail with
  | .errorCfg => .scryError {}
  | .value v => v

/-- The wrapper `handle_final_exception(fail_response)` applied to one call of the
wrapped function: return its value, or convert any raised exception to
the configured failure value (src/utils/scryfall.py lines 56-75). -/
def handle_final_exception {β : Type} (fail : FailResponse β)
    (call : Except Exn (WrapResult β)) : WrapResult β :=
  match call with
  | .ok v => v
  | .error _ => failValue fail

/-- The decorator `backoff.on_exception(expo, RequestException, max_tries=n)` applied to
a call whose outcome may differ per attempt (`call i` is the outcome of
attempt number `i`).  A raised `RequestException` is retried while
attempts remain; any other exception, or exhaustion, re-raises.  Returns
the final outcome together with the number of attempts made.  The
`max_time=1` backoff budget only clips sleep durations and is not
modelled (it never changes which attempt returns). -/
def on_exception_go {β : Type} (call : Nat → Except Exn β) :
    Nat → Nat → Except Exn β × Nat
  | 0, i => (.error .request, i)
  | rem + 1, i =>
    match call i with
    | .ok v => (.ok v, i + 1)
    | .error .other => (.error .other, i + 1)
    | .error .request =>
      if rem = 0 then (.error .request, i + 1)
      else on_exception_go call rem (i + 1)

/-- The `max_tries=3` instance used by `handle_request_failure`. -/
def on_exception3 {β : Type} (call : Nat → Except Exn β) : Except Exn β × Nat :=
  on_exception_go call 3 0

/-- The full decorator stack of `handle_request_failure(fail_response)`
(src/utils/scryfall.py lines 78-95), applied bottom-up exactly as in the
source: `handle_final_exception` is the innermost wrapper, the
`on_exception` retry wraps it, and the rate limiter (value-transparent,
not modelled) wraps that.  `raw i` is the raw request body's outcome on
attempt `i`.  Returns the final outcome of the whole wrapper and the
number of raw attempts made. -/
def handle_request_failure_run {β : Type} (fail : FailResponse β)
    (raw : Nat → Except Exn (WrapResult β)) : Except Exn (WrapResult β) × Nat :=
  on_exception3 (fun i => Except.ok (handle_final_exception fail (raw i)))

/-- Concrete raw-call behaviour exhibiting the dead retry: attempt 0
raises `RequestException` (a transient transport failure), every later
attempt would succeed with the value `7`. -/
def rawTransient : Nat → Except Exn (WrapResult Nat) :=
  fun i => if i = 0 then .error .request else .ok (.val 7)

/-! ## JSON values and Python-dict operations -/

/-- A JSON-ish Python value, as produced by `.json()` / `json.loads`. -/
inductive JVal where
  | s : String → JVal
  | n : Int → JVal
  | b : Bool → JVal
  | arr : List JVal → JVal
  | obj : List (String × JVal) → JVal
  | null : JVal

/-- A Python dict with string keys, as an insertion-ordered association
list.  CPython dicts have unique keys; lookups are first-match. -/
abbrev JDict := List (String × JVal)

/-- Python truthiness of a value, as used by `if j.get('name')` and by
`(data_mtg and data_scry)`. -/
def truthy : JVal → Bool
  | .s v => !(v == "")
  | .n v => !(v == 0)
  | .b v => v
  | .arr l => !l.isEmpty
  | .obj l => !l.isEmpty
  | .null => false

/-- Python `len(...)`: defined on lists, strings and dicts, raises
`TypeError` otherwise. -/
def pyLen : JVal → Except Unit Int
  | .arr l => .ok l.length
  | .s v => .ok v.length
  | .obj l => .ok l.length
  | _ => .error ()

/-- Lookup `d[k]` returning `Option`: first entry with the key. -/
def jlookup (d : JDict) (k : String) : Option JVal :=
  (d.find? (fun p => p.1 == k)).map (fun p => p.2)

/-- Membership test `k in d`. -/
def jcontains (d : JDict) (k : String) : Bool :=
  d.any (fun p => p.1 == k)

/-- Lookup `d.get(k, v)` with default. -/
def jgetD (d : JDict) (k : String) (v : JVal) : JVal :=
  (jlookup d k).getD v

/-- Assignment `d[k] = v`: replace the value in place at the first (for a
Python dict: only) occurrence of the key, else append the pair (CPython
keeps insertion order). -/
def jinsert : JDict → String → JVal → JDict
  | [], k, v => [(k, v)]
  | p :: t, k, v => if p.1 == k then (k, v) :: t else p :: jinsert t k v

/-- Python `d.setdefault(k, v)`: insert only if the key is absent. -/
def jsetdefault (d : JDict) (k : String) (v : JVal) : JDict :=
  if jcontains d k then d else d ++ [(k, v)]

/-- Python `d.update(other)`: assign every pair of `other` into `d`, in order. -/
def jupdate (d other : JDict) : JDict :=
  other.foldl (fun acc p => jinsert acc p.1 p.2) d

/-- Python `d.pop(k, default)`: the removed (or default) value and the remaining
dict. -/
def jpopD (d : JDict) (k : String) (v : JVal) : JVal × JDict :=
  ((jlookup d k).getD v, d.eraseP (fun p => p.1 == k))

/-- Python `d.pop(k)` with no default: raises `KeyError` when the key is absent. -/
def jpopStrict (d : JDict) (k : String) : Except Unit JDict :=
  if jcontains d k then .ok (d.eraseP (fun p => p.1 == k)) else .error ()

/-! ## Set resolver (`get_set_scryfall`, `get_set_mtgjson`, `get_set_data`) -/

/-- The environment a set resolution runs against: the persisted cache
file for the requested (uppercased) set code, and the raw bodies the two
providers answer with.  `Except.error` marks a raised exception (missing
file modelled by `cacheFileExists = false`; parse failure or network
fault by an `error` result). -/
structure SetEnv where
  cacheFileExists : Bool
  cacheLoad : Except Unit JDict
  scryRaw : String → Except Unit JVal
  mtgRaw : String → Except Unit JVal

/-- Body of `get_set_scryfall` (src/utils/scryfall.py lines 320-336)
before its `@handle_request_failure({})` wrapper: parse the response
text, `setdefault` the `scryfall` marker, and return the dict only if it
carries a truthy `name`.  `setdefault` on a non-dict raises. -/
def get_set_scryfall_raw (env : SetEnv) (card_set : String) : Except Unit JDict :=
  match env.scryRaw card_set.toUpper with
  | .error e => .error e
  | .ok (.obj d) =>
    let d := jsetdefault d ("scryfall") (.b true)
    .ok (if truthy (jgetD d ("name") .null) then d else [])
  | .ok _ => .error ()

/-- The function `get_set_scryfall` with its wrapper: any exception becomes the
configured `{}` fallback (the retry layer is value-transparent here, see
the request-client theorems). -/
def get_set_scryfall (env : SetEnv) (card_set : String) : JDict :=
  match get_set_scryfall_raw env card_set with
  | .ok d => d
  | .error _ => []

/-- Body of `get_set_mtgjson` (src/utils/scryfall.py lines 297-317)
before its `@handle_request_failure({})` wrapper: unwrap the `data`
envelope, replace the `tokens` list by `tokenCount`, `pop` the three
provider-internal keys (no default: `KeyError` when absent), and return
the dict only if it carries a truthy `name`. -/
def get_set_mtgjson_raw (env : SetEnv) (card_set : String) : Except Unit JDict :=
  match env.mtgRaw card_set.toUpper with
  | .error e => .error e
  | .ok (.obj d) =>
    match jgetD d ("data") (.obj []) with
    | .obj j =>
      let tk := jpopD j ("tokens") (.arr [])
      match pyLen tk.1 with
      | .error e => .error e
      | .ok tlen =>
        let j := jinsert tk.2 ("tokenCount") (.n tlen)
        match jpopStrict j ("sealedProduct") with
        | .error e => .error e
        | .ok j1 =>
          match jpopStrict j1 ("booster") with
          | .error e => .error e
          | .ok j2 =>
            match jpopStrict j2 ("cards") with
            | .error e => .error e
            | .ok j3 => .ok (if truthy (jgetD j3 ("name") .null) then j3 else [])
    | _ => .error ()
  | .ok _ => .error ()

/-- The function `get_set_mtgjson` with its wrapper: any exception becomes the empty dict. -/
def get_set_mtgjson (env : SetEnv) (card_set : String) : JDict :=
  match get_set_mtgjson_raw env card_set with
  | .ok d => d
  | .error _ => []

/-- The cache-check step of `get_set_data` (lines 150-159): a hit needs
the file to exist, load without an exception, and contain the `scryfall`
key. -/
def set_cache_hit (env : SetEnv) : Option JDict :=
  if env.cacheFileExists then
    match env.cacheLoad with
    | .ok d => if jcontains d ("scryfall") then some d else none
    | .error _ => none
  else none

/-- The primary-provider record fetched on a cache miss. -/
def set_merge_scry (env : SetEnv) (card_set : String) : JDict :=
  get_set_scryfall env card_set

/-- The set code used for the secondary lookup: the parent set code when
the primary record is a token set.  `none` models a non-string
`parent_set_code`, whose `.upper()` inside the wrapped secondary call
would raise (so that call returns `{}`). -/
def set_mtg_code (env : SetEnv) (card_set : String) : Option String :=
  let ds := set_merge_scry env card_set
  let isToken := match jlookup ds ("set_type") with
    | some (.s v) => v == "token"
    | _ => false
  if isToken then
    match jlookup ds ("parent_set_code") with
    | some (.s v) => some v
    | some _ => none
    | none => some card_set
  else some card_set

/-- The secondary-provider record fetched on a cache miss. -/
def set_merge_mtg (env : SetEnv) (card_set : String) : JDict :=
  match set_mtg_code env card_set with
  | some c => get_set_mtgjson env c
  | none => []

/-- The outcome of one `get_set_data` call: the returned record, how many
provider requests were issued, and the record handed to
`dump_data_file` when the persist condition held (a dump failure is
logged and changes nothing). -/
structure SetResult where
  data : JDict
  netCalls : Nat
  persisted : Option JDict

/-- The resolver `get_set_data` (src/utils/scryfall.py lines 144-179): cache check,
then fetch both providers, fold the secondary record into the primary
one with `data_scry.update(data_mtg)`, and persist when both lookups
were truthy or the merged record has a `printed_size`. -/
def get_set_data (env : SetEnv) (card_set : String) : SetResult :=
  match set_cache_hit env with
  | some d => { data := d, netCalls := 0, persisted := none }
  | none =>
    { data := jupdate (set_merge_scry env card_set) (set_merge_mtg env card_set)
    , netCalls := 1 + (if (set_mtg_code env card_set).isSome then 1 else 0)
    , persisted :=
        if (!(set_merge_mtg env card_set).isEmpty &&
              !(jupdate (set_merge_scry env card_set) (set_merge_mtg env card_set)).isEmpty)
            || jcontains (jupdate (set_merge_scry env card_set)
                (set_merge_mtg env card_set)) ("printed_size")
        then some (jupdate (set_merge_scry env card_set) (set_merge_mtg env card_set))
        else none }

/-- Environment for the merge-precedence counterexample: the primary
record carries `name = "A"`, the secondary carries `name = "B"` (plus
the fields `get_set_mtgjson` pops), and there is no usable cache. -/
def envMergeCE : SetEnv where
  cacheFileExists := false
  cacheLoad := .error ()
  scryRaw := fun _ => .ok (.obj [("name", .s ("A")), ("x", .s ("scry"))])
  mtgRaw := fun _ => .ok (.obj [("data", .obj
      [ ("name", .s ("B"))
      , ("tokens", .arr [])
      , ("sealedProduct", .null)
      , ("booster", .null)
      , ("cards", .null)
      , ("x", .s ("mtg"))])])

/-- Environment with a valid cache entry, for the cache-hit witness. -/
def envCacheHit : SetEnv where
  cacheFileExists := true
  cacheLoad := .ok [("scryfall", .b true), ("name", .s ("Kamigawa"))]
  scryRaw := fun _ => .error ()
  mtgRaw := fun _ => .error ()

/-- Environment for the persist-invariant witness: both providers answer
with valid records, so the merged record is persisted. -/
def envPersist : SetEnv where
  cacheFileExists := false
  cacheLoad := .error ()
  scryRaw := fun _ => .ok (.obj [("name", .s ("Modern Horizons 2"))])
  mtgRaw := fun _ => .ok (.obj [("data", .obj
      [ ("name", .s ("Modern Horizons 2"))
      , ("tokens", .arr [.null, .null])
      , ("sealedProduct", .null)
      , ("booster", .null)
      , ("cards", .arr [])])])

/-- Environment for the merge-precedence amended-claim witness. -/
def envMergeW : SetEnv where
  cacheFileExists := false
  cacheLoad := .error ()
  scryRaw := fun _ => .ok (.obj [("name", .s ("S")), ("code", .s ("mh2"))])
  mtgRaw := fun _ => .ok (.obj [("data", .obj
      [ ("name", .s ("M"))
      , ("tokens", .arr [])
      , ("sealedProduct", .null)
      , ("booster", .null)
      , ("cards", .null)])])

/-! ## Layout classifier (`process_scryfall_data`) -/

/-- Boolean list containment of one list inside another, used for
Python's `needle in haystack` substring test. -/
def listHolds (needle : List Char) : List Char → Bool
  | [] => needle.isEmpty
  | h :: t => (needle.isPrefixOf (h :: t)) || listHolds needle t

/-- Python's `needle in hay` substring test on strings. -/
def substr (needle hay : String) : Bool :=
  listHolds needle.toList hay.toList

/-- One entry of a card record's `all_parts` (a related-card reference):
its `component` tag, card `name` and API `uri`. -/
structure Part where
  component : String
  name : String
  uri : String
deriving DecidableEq

/-- One entry of `card_faces`: the fields the classifier touches. -/
structure Face where
  object : String := ""
  name : String
  type_line : String
deriving DecidableEq

/-- The card record fields `process_scryfall_data` reads or writes.
`card_faces` and `frame_effects` are `Option` because the source tests
key presence (`'card_faces' in data`) and uses `setdefault`; the other
optional fields are read through `.get` with a default, so the default
is folded in. -/
structure CardRec where
  name_normalized : String
  layout : String
  type_line : String := ""
  all_parts : List Part := []
  card_faces : Option (List Face) := none
  frame_effects : Option (List String) := none
  keywords : List String := []
deriving DecidableEq

/-- Modelled from the spec: the meld transform-icon marker
`TransformIcons.MELD` (the enum `src.enums.mtg.TransformIcons` is not
under src/; the spec calls it "the meld icon marker").  Membership of a
frame-effect string in the enum is kept abstract as an `icons` predicate
in the definitions below, constrained in the theorems by
`icons MELD = true`. -/
def MELD : String := "meld"

/-- The front/back decision of the meld branch (lines 405-416): collect
the `meld_part` entries in order and the last `meld_result`; pick
`front[0]` when the queried normalized name matches the back's or
`front[0]`'s normalized name, else `front[1]`.  Missing entries raise
(`TypeError`/`IndexError`), modelled as `error`. -/
def meld_faces_choice (norm : String → String) (data : CardRec) :
    Except Unit (Part × Part) :=
  let front := data.all_parts.filter (fun p => p.component == "meld_part")
  match (data.all_parts.filter (fun p => p.component == "meld_result")).getLast? with
  | none => .error ()
  | some back =>
    match front with
    | [] => .error ()
    | f0 :: rest =>
      if data.name_normalized == norm back.name || data.name_normalized == norm f0.name then
        .ok (f0, back)
      else
        match rest with
        | [] => .error ()
        | f1 :: _ => .ok (f1, back)

/-- The meld branch of `process_scryfall_data` (lines 402-427): when the
layout is `meld`, choose front and back, fetch each face's full record
by its `uri` (the `fetch` environment models `requests.get(...).json()`)
tagging it `card_face`, append the meld icon to `frame_effects` unless
some entry already is a transform icon, and reassign the layout to
`transform`. -/
def meld_step (norm : String → String) (icons : String → Bool)
    (fetch : String → Face) (data : CardRec) : Except Unit CardRec :=
  if data.layout == "meld" then
    match meld_faces_choice norm data with
    | .error e => .error e
    | .ok fb =>
      let faces := [fb.1, fb.2].map (fun p => { fetch p.uri with object := "card_face" })
      let fe := data.frame_effects.getD []
      let fe' := if fe.any icons then data.frame_effects else some (fe ++ [MELD])
      .ok { data with card_faces := some faces, frame_effects := fe', layout := "transform" }
  else .ok data

/-- The face selection of the two-face branch (lines 432-434):
`card_faces[0]` when its normalized name equals the queried normalized
name, else `card_faces[1]`; a missing face raises. -/
def faces_select (norm : String → String) (data : CardRec) : Except Unit Face :=
  match data.card_faces with
  | none => .error ()
  | some [] => .error ()
  | some (f0 :: rest) =>
    if norm f0.name == data.name_normalized then .ok f0
    else
      match rest with
      | [] => .error ()
      | f1 :: _ => .ok f1

/-- The classification cascade after the meld branch (lines 429-457):
the two-face branch relabels the layout through the three sequential
type-line tests and returns; otherwise the mutate-keyword and
single-face planeswalker checks apply. -/
def classify_step (norm : String → String) (data : CardRec) : Except Unit CardRec :=
  match data.card_faces with
  | some _ =>
    match faces_select norm data with
    | .error e => .error e
    | .ok card =>
      let l1 := if substr ("Planeswalker") card.type_line then
          (if data.layout == "transform" then "planeswalker_tf" else "planeswalker_mdfc")
        else data.layout
      let l2 := if substr ("Saga") card.type_line then "saga" else l1
      let l3 := if substr ("Battle") card.type_line then "battle" else l2
      .ok { data with layout := l3 }
  | none =>
    if data.keywords.contains ("Mutate") then .ok { data with layout := "mutate" }
    else if substr ("Planeswalker") data.type_line then .ok { data with layout := "planeswalker" }
    else .ok data

/-- The classifier `process_scryfall_data` (src/utils/scryfall.py lines 396-457): the
meld branch followed by the classification cascade. -/
def process_scryfall_data (norm : String → String) (icons : String → Bool)
    (fetch : String → Face) (data : CardRec) : Except Unit CardRec :=
  match meld_step norm icons fetch data with
  | .error e => .error e
  | .ok d => classify_step norm d

/-- Identity normalization, for concrete instances. -/
def normId : String → String := fun s => s

/-- Icon predicate recognising exactly the meld marker, for concrete
instances. -/
def iconsMeld : String → Bool := fun s => s == MELD

/-- Face-fetch environment returning a fixed plain face, for concrete
instances where the fetched contents are irrelevant. -/
def fetchConst : String → Face := fun _ => { name := "F", type_line := "Creature" }

/-- Counterexample record for the two-face classification claim: the
selected face's type line contains both "Planeswalker" and "Battle". -/
def recPWBattle : CardRec where
  name_normalized := "a"
  layout := "transform"
  card_faces := some
    [ { name := "a", type_line := "Legendary Planeswalker Battle" }
    , { name := "b", type_line := "Creature" } ]

/-- Witness record for the two-face classification claim: a plain
transform planeswalker. -/
def recPWTf : CardRec where
  name_normalized := "a"
  layout := "transform"
  card_faces := some
    [ { name := "a", type_line := "Legendary Planeswalker" }
    , { name := "b", type_line := "Creature" } ]

/-- First meld part of the concrete meld witness. -/
def partUrza : Part := { component := "meld_part", name := "Urza", uri := "u1" }

/-- Second meld part of the concrete meld witness. -/
def partMishra : Part := { component := "meld_part", name := "Mishra", uri := "u2" }

/-- Meld result of the concrete meld witness. -/
def partUrzaMishra : Part := { component := "meld_result", name := "UrzaMishra", uri := "u3" }

/-- Witness record for the meld claims: layout `meld`, two `meld_part`
entries and one `meld_result` entry, queried by the first part's name. -/
def recMeld : CardRec where
  name_normalized := "urza"
  layout := "meld"
  all_parts := [partUrza, partMishra, partUrzaMishra]

/-- Normalization used by the meld witnesses: ASCII lowercasing. -/
def normLower : String → String := fun s => s.toLower

/-! ## Filename parser (`retrieve_card_info`) and render coordinator -/

/-- Drop a leading run of the character `c` (the greedy `\x7b+` part of
the tag patterns). -/
def dropRun (c : Char) : List Char → List Char
  | [] => []
  | x :: xs => if x == c then dropRun c xs else x :: xs

/-- The characters before the first occurrence of `c`, or `none` when `c`
does not occur (the lazy `(.*?)` capture up to the closing bracket).
Faithful to the regex for inputs without newline characters. -/
def takeUntil (c : Char) : List Char → Option (List Char)
  | [] => none
  | x :: xs => if x == c then some [] else (takeUntil c xs).map (fun l => x :: l)

/-- First match of the pattern `op+(.*?)cl` in a string, as used by
`re.findall(r'\x7b+(.*?)\x7d', filename)[0]` and its `()`/`[]`
analogues: scan for an opening character, swallow its run, capture
lazily up to the first closing character. -/
def findTag (op cl : Char) : List Char → Option (List Char)
  | [] => none
  | x :: xs =>
    if x == op then
      match takeUntil cl (dropRun op xs) with
      | some cap => some cap
      | none => findTag op cl xs
    else findTag op cl xs

/-- Is this character one of the three tag openers? -/
def isOpener (c : Char) : Bool :=
  c == '{' || c == '[' || c == '('

/-- The first segment of `re.split(' \x7b| \x5b| \x28', stem)`: the
characters before the first two-character separator (a space followed by
a tag opener). -/
def nameLead : List Char → List Char
  | [] => []
  | [c] => [c]
  | c1 :: c2 :: rest =>
    if c1 == ' ' && isOpener c2 then []
    else c1 :: nameLead (c2 :: rest)

/-- The dictionary `retrieve_card_info` returns (proxyshop/render.py
lines 13-40): note there is no collector-number field. -/
structure CardInfoR where
  name : List Char
  artist : Option (List Char)
  set : Option (List Char)
  creator : Option (List Char)
deriving DecidableEq

/-- The parser `retrieve_card_info(filename)` (proxyshop/render.py lines 13-40):
split the name off `filename[:-4]`, and scan the full filename for the
first `\x7b...\x7d` (creator), `(...)` (artist) and `[...]` (set)
groups, each `None` when absent. -/
def retrieve_card_info (filename : List Char) : CardInfoR :=
  { name := nameLead (filename.take (filename.length - 4))
  , creator := findTag '{' '}' filename
  , artist := findTag '(' ')' filename
  , set := findTag '[' ']' filename }

/-- A bracketed tag block as it appears in a filename: a space, the
opener, the content, the closer. -/
def tagOf (op cl : Char) (cap : List Char) : List Char :=
  ' ' :: op :: (cap ++ [cl])

/-- Characters allowed inside a tag content for the parser property: no
brackets of any kind and no newline. -/
def plainTagChar (c : Char) : Bool :=
  !(c == '{' || c == '}' || c == '[' || c == ']' || c == '(' || c == ')' || c == '\n')

/-- Characters allowed inside the bare card name for the parser
property: no tag opener. -/
def plainNameChar (c : Char) : Bool :=
  !(isOpener c)

/-- The basic-land layout object the render coordinator constructs
(`layouts.BasicLand(name, artist, set.upper())`). -/
structure BasicLand where
  name : List Char
  artist : Option (List Char)
  set : List Char
deriving DecidableEq

/-- The basic-land short circuit of `render` (proxyshop/render.py lines
50-56): parse the filename; when the parsed name is a basic-land name,
build the `BasicLand` layout.  `card['set'].upper()` on an absent set
tag (`None`) raises `AttributeError`, modelled as `error`; nothing in
`render` catches it. `basicLands` abstracts `con.basic_land_names`
(proxyshop/constants.py is not under src/). -/
def render_basic_step (basicLands : List (List Char)) (filename : List Char) :
    Option (Except Unit BasicLand) :=
  if (retrieve_card_info filename).name ∈ basicLands then
    some (match (retrieve_card_info filename).set with
      | none => .error ()
      | some s => .ok { name := (retrieve_card_info filename).name
                      , artist := (retrieve_card_info filename).artist
                      , set := s.map Char.toUpper })
  else none

/-- Concrete raw-call behaviour for the terminal-catch witness: every
attempt raises a non-transient exception. -/
def rawAllFail : Nat → Except Exn (WrapResult Nat) :=
  fun _ => .error .other

/-!
## Theorems

First the request-client claims, then association-list lemmas and the
set-resolver claims, then the layout-classifier claims, then the
filename-parser and render-coordinator claims.
-/

/-- Claim C2 (code bug): the spec says a transient `RequestException` is
retried up to 3 times with backoff before degrading to the terminal
fallback.  In the source the `handle_final_exception` wrapper sits
*inside* `on_exception`, so it converts every exception (including
`RequestException`) to the fallback before the retry layer can see it:
the wrapper makes exactly one raw attempt for every input (first
conjunct).  At the failing input `rawTransient` — transient failure on
attempt 0, success afterwards — the wrapper returns the `ScryfallError`
fallback after a single attempt (second conjunct), although the retry
combinator itself, applied directly to the raw call as the spec intends,
would have succeeded on the second attempt (third conjunct). -/
theorem C2_retry_never_fires :
    (∀ (β : Type) (fail : FailResponse β) (raw : Nat → Except Exn (WrapResult β)),
      handle_request_failure_run fail raw =
        (.ok (handle_final_exception fail (raw 0)), 1)) ∧
    handle_request_failure_run .errorCfg rawTransient = (.ok (.scryError {}), 1) ∧
    on_exception3 rawTransient = (.ok (.val 7), 2) :=
  ⟨fun _ _ _ => rfl, rfl, rfl⟩

/-- Claim C5: a call wrapped by `handle_request_failure` whose raw body
raises on every attempt returns the configured fallback value — the
typed `ScryfallError` when configured as `'error'`, else the supplied
default — and never propagates the exception (the overall outcome is an
`ok` value, not a raised exception). -/
theorem C5_terminal_catch {β : Type} (fail : FailResponse β)
    (raw : Nat → Except Exn (WrapResult β))
    (h : ∀ i, ∃ e, raw i = .error e) :
    (handle_request_failure_run fail raw).1 = .ok (failValue fail) := by
  obtain ⟨e, he⟩ := h 0
  simp [handle_request_failure_run, on_exception3, on_exception_go,
    handle_final_exception, he]

/-- Witness for C5 at a concrete always-failing call with the `None`-like
fallback value `Nat 0`. -/
theorem C5_terminal_catch_witness :
    (∀ i, ∃ e, rawAllFail i = .error e) ∧
    (handle_request_failure_run (.value (.val 0)) rawAllFail).1 = .ok (.val 0) :=
  ⟨fun _ => ⟨.other, rfl⟩,
   C5_terminal_catch (.value (.val 0)) rawAllFail (fun _ => ⟨.other, rfl⟩)⟩

/-! ### Association-list lemmas for the set-record merge -/

theorem jlookup_cons_pos (p : String × JVal) (t : JDict) (k : String)
    (h : p.1 = k) : jlookup (p :: t) k = some p.2 := by
  simp [jlookup, List.find?_cons_of_pos, h]

theorem jlookup_cons_neg (p : String × JVal) (t : JDict) (k : String)
    (h : p.1 ≠ k) : jlookup (p :: t) k = jlookup t k := by
  unfold jlookup
  rw [List.find?_cons_of_neg]
  simp [h]

theorem jcontains_iff_mem (d : JDict) (k : String) :
    jcontains d k = true ↔ k ∈ d.map Prod.fst := by
  simp only [jcontains, List.any_eq_true, beq_iff_eq, List.mem_map]

theorem jlookup_jinsert_self (d : JDict) (k : String) (v : JVal) :
    jlookup (jinsert d k v) k = some v := by
  induction d with
  | nil => simp [jinsert, jlookup]
  | cons p t ih =>
    unfold jinsert
    by_cases h : p.1 = k
    · simp only [h, beq_self_eq_true, if_true]
      exact jlookup_cons_pos _ _ _ rfl
    · simp only [beq_iff_eq, h, if_false]
      rw [jlookup_cons_neg _ _ _ h]
      exact ih

theorem jlookup_jinsert_ne (d : JDict) (k' k : String) (v : JVal)
    (h : k' ≠ k) : jlookup (jinsert d k' v) k = jlookup d k := by
  induction d with
  | nil =>
    unfold jinsert
    rw [jlookup_cons_neg _ _ _ h]
  | cons p t ih =>
    unfold jinsert
    by_cases hp : p.1 = k'
    · simp only [hp, beq_self_eq_true, if_true]
      rw [jlookup_cons_neg _ _ _ h, jlookup_cons_neg _ _ _ (hp ▸ h)]
    · simp only [beq_iff_eq, hp, if_false]
      by_cases hk : p.1 = k
      · rw [jlookup_cons_pos _ _ _ hk, jlookup_cons_pos _ _ _ hk]
      · rw [jlookup_cons_neg _ _ _ hk, jlookup_cons_neg _ _ _ hk]
        exact ih

theorem jlookup_some_jcontains (d : JDict) (k : String) (v : JVal)
    (h : jlookup d k = some v) : jcontains d k = true := by
  induction d with
  | nil => simp [jlookup] at h
  | cons p t ih =>
    by_cases hp : p.1 = k
    · simp [jcontains, hp]
    · rw [jlookup_cons_neg _ _ _ hp] at h
      simp only [jcontains, List.any_cons, Bool.or_eq_true]
      exact Or.inr (ih h)

theorem jcontains_ne_nil (d : JDict) (k : String) (h : jcontains d k = true) :
    d ≠ [] := by
  intro hd
  subst hd
  simp [jcontains] at h

theorem jupdate_lookup_of_not_mem (d other : JDict) (k : String)
    (h : jcontains other k = false) :
    jlookup (jupdate d other) k = jlookup d k := by
  induction other generalizing d with
  | nil => rfl
  | cons p t ih =>
    simp only [jcontains, List.any_cons, Bool.or_eq_false_iff, beq_eq_false_iff_ne] at h
    show jlookup (jupdate (jinsert d p.1 p.2) t) k = _
    rw [ih (jinsert d p.1 p.2) h.2]
    exact jlookup_jinsert_ne d p.1 k p.2 h.1

theorem jupdate_lookup_of_mem (d other : JDict) (k : String)
    (hnd : (other.map Prod.fst).Nodup) (h : jcontains other k = true) :
    jlookup (jupdate d other) k = jlookup other k := by
  induction other generalizing d with
  | nil => simp [jcontains] at h
  | cons p t ih =>
    simp only [List.map_cons, List.nodup_cons] at hnd
    by_cases hp : p.1 = k
    · subst hp
      have hnotk : jcontains t p.1 = false := by
        cases hcc : jcontains t p.1
        · rfl
        · exact absurd ((jcontains_iff_mem t p.1).mp hcc) hnd.1
      show jlookup (jupdate (jinsert d p.1 p.2) t) p.1 = _
      rw [jupdate_lookup_of_not_mem _ t p.1 hnotk, jlookup_jinsert_self d p.1 p.2,
        jlookup_cons_pos p t p.1 rfl]
    · have hmem : jcontains t k = true := by
        simp only [jcontains, List.any_cons, Bool.or_eq_true, beq_iff_eq] at h
        rcases h with h | h
        · exact absurd h hp
        · exact h
      show jlookup (jupdate (jinsert d p.1 p.2) t) k = _
      rw [ih (jinsert d p.1 p.2) hnd.2 hmem, jlookup_cons_neg _ _ _ hp]

theorem jupdate_nil (d : JDict) : jupdate d [] = d := rfl

/-! ### Set-resolver lemmas and claims -/

/-- If a truthy-with-default lookup is truthy, the key is present with a
truthy value. -/
theorem truthy_getD (o : Option JVal) (h : truthy (o.getD .null) = true) :
    ∃ v, o = some v ∧ truthy v = true := by
  cases o with
  | none => simp [truthy] at h
  | some v => exact ⟨v, rfl, h⟩

/-- A result of `get_set_scryfall_raw` is empty or carries a truthy
`name`. -/
theorem get_set_scryfall_raw_name (env : SetEnv) (c : String) (d : JDict)
    (hr : get_set_scryfall_raw env c = .ok d) (h : d ≠ []) :
    ∃ v, jlookup d ("name") = some v ∧ truthy v = true := by
  unfold get_set_scryfall_raw at hr
  cases he : env.scryRaw c.toUpper with
  | error e => rw [he] at hr; exact absurd hr (by simp)
  | ok jv =>
    rw [he] at hr
    cases jv with
    | obj d0 =>
      simp only at hr
      by_cases ht : truthy (jgetD (jsetdefault d0 ("scryfall") (.b true)) ("name") .null) = true
      · rw [if_pos ht] at hr
        injection hr with hr
        subst hr
        exact truthy_getD _ ht
      · rw [if_neg ht] at hr
        injection hr with hr
        exact absurd hr.symm h
    | s v => exact absurd hr (by simp)
    | n v => exact absurd hr (by simp)
    | b v => exact absurd hr (by simp)
    | arr v => exact absurd hr (by simp)
    | null => exact absurd hr (by simp)

/-- A non-empty `get_set_scryfall` result carries a truthy `name`. -/
theorem get_set_scryfall_name (env : SetEnv) (c : String)
    (h : get_set_scryfall env c ≠ []) :
    ∃ v, jlookup (get_set_scryfall env c) ("name") = some v ∧ truthy v = true := by
  cases hr : get_set_scryfall_raw env c with
  | error e => simp [get_set_scryfall, hr] at h
  | ok d =>
    have hgs : get_set_scryfall env c = d := by simp [get_set_scryfall, hr]
    rw [hgs] at h ⊢
    exact get_set_scryfall_raw_name env c d hr h

/-- A result of `get_set_mtgjson_raw` is empty or carries a truthy
`name`. -/
theorem get_set_mtgjson_raw_name (env : SetEnv) (c : String) (d : JDict)
    (hr : get_set_mtgjson_raw env c = .ok d) (h : d ≠ []) :
    ∃ v, jlookup d ("name") = some v ∧ truthy v = true := by
  unfold get_set_mtgjson_raw at hr
  cases he : env.mtgRaw c.toUpper with
  | error e => rw [he] at hr; exact absurd hr (by simp)
  | ok jv =>
    rw [he] at hr
    cases jv with
    | obj d0 =>
      simp only at hr
      cases hj : jgetD d0 ("data") (.obj []) with
      | obj j0 =>
        rw [hj] at hr
        simp only at hr
        cases hl : pyLen (jpopD j0 ("tokens") (.arr [])).1 with
        | error e => rw [hl] at hr; exact absurd hr (by simp)
        | ok tlen =>
          rw [hl] at hr
          simp only at hr
          cases h1 : jpopStrict (jinsert (jpopD j0 ("tokens") (.arr [])).2
              ("tokenCount") (.n tlen)) ("sealedProduct") with
          | error e => rw [h1] at hr; exact absurd hr (by simp)
          | ok j1 =>
            rw [h1] at hr
            simp only at hr
            cases h2 : jpopStrict j1 ("booster") with
            | error e => rw [h2] at hr; exact absurd hr (by simp)
            | ok j2 =>
              rw [h2] at hr
              simp only at hr
              cases h3 : jpopStrict j2 ("cards") with
              | error e => rw [h3] at hr; exact absurd hr (by simp)
              | ok j3 =>
                rw [h3] at hr
                simp only at hr
                by_cases ht : truthy (jgetD j3 ("name") .null) = true
                · rw [if_pos ht] at hr
                  injection hr with hr
                  subst hr
                  exact truthy_getD _ ht
                · rw [if_neg ht] at hr
                  injection hr with hr
                  exact absurd hr.symm h
      | s v => rw [hj] at hr; exact absurd hr (by simp)
      | n v => rw [hj] at hr; exact absurd hr (by simp)
      | b v => rw [hj] at hr; exact absurd hr (by simp)
      | arr v => rw [hj] at hr; exact absurd hr (by simp)
      | null => rw [hj] at hr; exact absurd hr (by simp)
    | s v => exact absurd hr (by simp)
    | n v => exact absurd hr (by simp)
    | b v => exact absurd hr (by simp)
    | arr v => exact absurd hr (by simp)
    | null => exact absurd hr (by simp)

/-- A non-empty `get_set_mtgjson` result carries a truthy `name`. -/
theorem get_set_mtgjson_name (env : SetEnv) (c : String)
    (h : get_set_mtgjson env c ≠ []) :
    ∃ v, jlookup (get_set_mtgjson env c) ("name") = some v ∧ truthy v = true := by
  cases hr : get_set_mtgjson_raw env c with
  | error e => simp [get_set_mtgjson, hr] at h
  | ok d =>
    have hgs : get_set_mtgjson env c = d := by simp [get_set_mtgjson, hr]
    rw [hgs] at h ⊢
    exact get_set_mtgjson_raw_name env c d hr h

/-- A non-empty primary merge input carries a truthy `name`. -/
theorem set_merge_scry_name (env : SetEnv) (cs : String)
    (h : set_merge_scry env cs ≠ []) :
    ∃ v, jlookup (set_merge_scry env cs) ("name") = some v ∧ truthy v = true :=
  get_set_scryfall_name env cs h

/-- A non-empty secondary merge input carries a truthy `name`. -/
theorem set_merge_mtg_name (env : SetEnv) (cs : String)
    (h : set_merge_mtg env cs ≠ []) :
    ∃ v, jlookup (set_merge_mtg env cs) ("name") = some v ∧ truthy v = true := by
  cases hc : set_mtg_code env cs with
  | none =>
    exfalso
    apply h
    unfold set_merge_mtg
    rw [hc]
  | some c =>
    have he : set_merge_mtg env cs = get_set_mtgjson env c := by
      unfold set_merge_mtg
      rw [hc]
    rw [he] at h ⊢
    exact get_set_mtgjson_name env c h

/-- The returned record of a cache miss is the fold of the secondary
record into the primary one. -/
theorem get_set_data_data (env : SetEnv) (cs : String)
    (hmiss : set_cache_hit env = none) :
    (get_set_data env cs).data =
      jupdate (set_merge_scry env cs) (set_merge_mtg env cs) := by
  unfold get_set_data
  rw [hmiss]

/-- The persisted record of a cache miss, as an explicit conditional. -/
theorem get_set_data_persisted (env : SetEnv) (cs : String)
    (hmiss : set_cache_hit env = none) :
    (get_set_data env cs).persisted =
      (if (!(set_merge_mtg env cs).isEmpty &&
            !(jupdate (set_merge_scry env cs) (set_merge_mtg env cs)).isEmpty)
          || jcontains (jupdate (set_merge_scry env cs)
              (set_merge_mtg env cs)) ("printed_size")
       then some (jupdate (set_merge_scry env cs) (set_merge_mtg env cs))
       else none) := by
  unfold get_set_data
  rw [hmiss]

/-- Claim C1 (counterexample): the spec says the primary (Scryfall)
provider's fields win on key collision.  With primary `name = "A"` and
secondary `name = "B"`, the source's `data_scry.update(data_mtg)` makes
the merged record carry the *secondary* value `"B"`, not `"A"`. -/
theorem C1_merge_counterexample :
    jlookup (get_set_data envMergeCE ("MH2")).data ("name") = some (.s ("B")) ∧
    jlookup (get_set_data envMergeCE ("MH2")).data ("name") ≠ some (.s ("A")) := by
  have h : jlookup (get_set_data envMergeCE ("MH2")).data ("name") = some (.s ("B")) := rfl
  refine ⟨h, ?_⟩
  rw [h]
  intro hc
  injection hc with hc1
  injection hc1 with hc2
  exact absurd hc2 (by decide)

/-- Claim C1 (amended): on a cache miss, the merged `SetRecord` carries
the *secondary* (MTGJSON) provider's value for every key the secondary
record supplies, and the primary (Scryfall) provider's value only for
keys the secondary record does not supply.  (Secondary records have
unique keys, being parsed JSON objects.) -/
theorem C1_merge_secondary_wins (env : SetEnv) (cs k : String)
    (hmiss : set_cache_hit env = none)
    (hnd : ((set_merge_mtg env cs).map Prod.fst).Nodup) :
    (jcontains (set_merge_mtg env cs) k = true →
      jlookup (get_set_data env cs).data k = jlookup (set_merge_mtg env cs) k) ∧
    (jcontains (set_merge_mtg env cs) k = false →
      jlookup (get_set_data env cs).data k = jlookup (set_merge_scry env cs) k) := by
  constructor
  · intro hc
    rw [get_set_data_data env cs hmiss]
    exact jupdate_lookup_of_mem _ _ k hnd hc
  · intro hc
    rw [get_set_data_data env cs hmiss]
    exact jupdate_lookup_of_not_mem _ _ k hc

/-- Witness for the amended C1 at a concrete environment where both
providers supply a `name`. -/
theorem C1_merge_secondary_wins_witness :
    set_cache_hit envMergeW = none ∧
    ((set_merge_mtg envMergeW ("MH2")).map Prod.fst).Nodup ∧
    jcontains (set_merge_mtg envMergeW ("MH2")) ("name") = true ∧
    jlookup (get_set_data envMergeW ("MH2")).data ("name") =
      jlookup (set_merge_mtg envMergeW ("MH2")) ("name") :=
  ⟨rfl, by decide, rfl,
   (C1_merge_secondary_wins envMergeW ("MH2") ("name") rfl (by decide)).1 rfl⟩

/-- Claim C6: when the cache file exists, loads, and carries the
`scryfall` marker key, the set resolver returns the cached record
unchanged, performs zero network calls and persists nothing; resolving
again under the same environment therefore returns the same data. -/
theorem C6_cache_hit (env : SetEnv) (cs : String) (d : JDict)
    (h1 : env.cacheFileExists = true) (h2 : env.cacheLoad = .ok d)
    (h3 : jcontains d ("scryfall") = true) :
    get_set_data env cs = { data := d, netCalls := 0, persisted := none } := by
  unfold get_set_data set_cache_hit
  rw [h1, h2]
  simp [h3]

/-- Witness for C6 at a concrete cached environment. -/
theorem C6_cache_hit_witness :
    envCacheHit.cacheFileExists = true ∧
    envCacheHit.cacheLoad = .ok [("scryfall", .b true), ("name", .s ("Kamigawa"))] ∧
    jcontains [("scryfall", JVal.b true), ("name", JVal.s ("Kamigawa"))] ("scryfall") = true ∧
    get_set_data envCacheHit ("NEO") =
      { data := [("scryfall", .b true), ("name", .s ("Kamigawa"))]
      , netCalls := 0, persisted := none } :=
  ⟨rfl, rfl, rfl, C6_cache_hit envCacheHit ("NEO") _ rfl rfl rfl⟩

/-- Claim C8: every record handed to the persist step of the set
resolver carries a truthy (non-empty) `name`.  (Secondary records have
unique keys, being parsed JSON objects.) -/
theorem C8_persist_has_name (env : SetEnv) (cs : String) (d : JDict)
    (hnd : ((set_merge_mtg env cs).map Prod.fst).Nodup)
    (h : (get_set_data env cs).persisted = some d) :
    ∃ v, jlookup d ("name") = some v ∧ truthy v = true := by
  cases hhit : set_cache_hit env with
  | some d0 =>
    unfold get_set_data at h
    rw [hhit] at h
    simp at h
  | none =>
    rw [get_set_data_persisted env cs hhit] at h
    split at h
    case isTrue hcond =>
      injection h with h
      subst h
      by_cases hdm : set_merge_mtg env cs = []
      · rw [hdm, jupdate_nil] at hcond ⊢
        rw [hdm] at hnd
        simp only [List.isEmpty_nil, Bool.not_true, Bool.false_and, Bool.false_or] at hcond
        exact set_merge_scry_name env cs (jcontains_ne_nil _ _ hcond)
      · obtain ⟨v, hv, htv⟩ := set_merge_mtg_name env cs hdm
        refine ⟨v, ?_, htv⟩
        rw [jupdate_lookup_of_mem _ _ _ hnd (jlookup_some_jcontains _ _ _ hv)]
        exact hv
    case isFalse hcond =>
      exact absurd h (by simp)

/-- Witness for C8 at a concrete environment whose merge is persisted. -/
theorem C8_persist_has_name_witness :
    ((set_merge_mtg envPersist ("MH2")).map Prod.fst).Nodup ∧
    (get_set_data envPersist ("MH2")).persisted =
      some [("name", JVal.s ("Modern Horizons 2")), ("scryfall", JVal.b true),
        ("tokenCount", JVal.n 2)] ∧
    ∃ v, jlookup [("name", JVal.s ("Modern Horizons 2")), ("scryfall", JVal.b true),
        ("tokenCount", JVal.n 2)] ("name") = some v ∧ truthy v = true :=
  ⟨by decide, rfl, C8_persist_has_name envPersist ("MH2") _ (by decide) rfl⟩

/-! ### Layout-classifier lemmas and claims -/

/-- The meld front/back choice, as an explicit conditional, for a record
with exactly two `meld_part` entries and one `meld_result` entry. -/
theorem meld_choice_eq (norm : String → String) (data : CardRec) (p0 p1 r : Part)
    (hfront : data.all_parts.filter (fun p => p.component == "meld_part") = [p0, p1])
    (hback : data.all_parts.filter (fun p => p.component == "meld_result") = [r]) :
    meld_faces_choice norm data =
      .ok ((if data.name_normalized == norm r.name
              || data.name_normalized == norm p0.name
            then p0 else p1), r) := by
  unfold meld_faces_choice
  rw [hfront, hback]
  show (if (data.name_normalized == norm r.name
          || data.name_normalized == norm p0.name) = true
        then Except.ok ((p0 : Part), r) else Except.ok ((p1 : Part), r)) = _
  split
  case isTrue h => rfl
  case isFalse h => rfl

/-- The full outcome of the meld branch on a well-formed meld record. -/
theorem meld_step_ok (norm : String → String) (icons : String → Bool)
    (fetch : String → Face) (data : CardRec) (p0 p1 r : Part)
    (hl : data.layout = "meld")
    (hfront : data.all_parts.filter (fun p => p.component == "meld_part") = [p0, p1])
    (hback : data.all_parts.filter (fun p => p.component == "meld_result") = [r]) :
    meld_step norm icons fetch data = .ok
      { data with
        card_faces := some
          [ { fetch (if data.name_normalized == norm r.name
                  || data.name_normalized == norm p0.name
                then p0 else p1).uri with object := "card_face" }
          , { fetch r.uri with object := "card_face" } ]
        , frame_effects :=
            if (data.frame_effects.getD []).any icons then data.frame_effects
            else some ((data.frame_effects.getD []) ++ [MELD])
        , layout := "transform" } := by
  unfold meld_step
  split
  case isFalse hfalse => exact absurd (by simp [hl]) hfalse
  case isTrue _ =>
    rw [meld_choice_eq norm data p0 p1 r hfront hback]
    rfl

/-- The meld branch is the identity on records whose layout is not
`meld`. -/
theorem meld_step_skip (norm : String → String) (icons : String → Bool)
    (fetch : String → Face) (d : CardRec) (h : d.layout ≠ "meld") :
    meld_step norm icons fetch d = .ok d := by
  unfold meld_step
  simp [h]

/-- On a record with exactly two faces, the classification cascade
succeeds, touches only the layout, and the final layout is one of the
four relabels or the incoming layout. -/
theorem classify_step_two (norm : String → String) (m : CardRec) (f0 f1 : Face)
    (h : m.card_faces = some [f0, f1]) :
    ∃ d, classify_step norm m = .ok d ∧
      d.card_faces = m.card_faces ∧
      d.frame_effects = m.frame_effects ∧
      (d.layout = "battle" ∨ d.layout = "saga" ∨ d.layout = "planeswalker_tf" ∨
        d.layout = "planeswalker_mdfc" ∨ d.layout = m.layout) := by
  have hsel : ∃ c, faces_select norm m = .ok c := by
    cases hs : (norm f0.name == m.name_normalized) with
    | true => exact ⟨f0, by unfold faces_select; rw [h]; simp [hs]⟩
    | false => exact ⟨f1, by unfold faces_select; rw [h]; simp [hs]⟩
  obtain ⟨c, hc⟩ := hsel
  have hlay :
      (if substr ("Battle") c.type_line then "battle"
       else if substr ("Saga") c.type_line then "saga"
       else if substr ("Planeswalker") c.type_line then
         (if m.layout == "transform" then "planeswalker_tf" else "planeswalker_mdfc")
       else m.layout) = "battle" ∨
      (if substr ("Battle") c.type_line then "battle"
       else if substr ("Saga") c.type_line then "saga"
       else if substr ("Planeswalker") c.type_line then
         (if m.layout == "transform" then "planeswalker_tf" else "planeswalker_mdfc")
       else m.layout) = "saga" ∨
      (if substr ("Battle") c.type_line then "battle"
       else if substr ("Saga") c.type_line then "saga"
       else if substr ("Planeswalker") c.type_line then
         (if m.layout == "transform" then "planeswalker_tf" else "planeswalker_mdfc")
       else m.layout) = "planeswalker_tf" ∨
      (if substr ("Battle") c.type_line then "battle"
       else if substr ("Saga") c.type_line then "saga"
       else if substr ("Planeswalker") c.type_line then
         (if m.layout == "transform" then "planeswalker_tf" else "planeswalker_mdfc")
       else m.layout) = "planeswalker_mdfc" ∨
      (if substr ("Battle") c.type_line then "battle"
       else if substr ("Saga") c.type_line then "saga"
       else if substr ("Planeswalker") c.type_line then
         (if m.layout == "transform" then "planeswalker_tf" else "planeswalker_mdfc")
       else m.layout) = m.layout := by
    split_ifs <;> tauto
  refine ⟨{ m with layout :=
      if (substr ("Battle") c.type_line) then "battle"
      else if (substr ("Saga") c.type_line) then "saga"
      else if (substr ("Planeswalker") c.type_line) then
        (if (m.layout == "transform") then "planeswalker_tf" else "planeswalker_mdfc")
      else m.layout }, ?_, rfl, rfl, hlay⟩
  unfold classify_step
  rw [h, hc]

/-- Claim C3: on a meld record with two `meld_part` entries and one
`meld_result`, the chosen front face is `front[0]` exactly when the
queried normalized name matches the back's or `front[0]`'s normalized
name (and `front[1]` otherwise), and the meld branch reassigns the
layout to `transform`. -/
theorem C3_meld_front_choice (norm : String → String) (icons : String → Bool)
    (fetch : String → Face) (data : CardRec) (p0 p1 r : Part)
    (hl : data.layout = "meld")
    (hfront : data.all_parts.filter (fun p => p.component == "meld_part") = [p0, p1])
    (hback : data.all_parts.filter (fun p => p.component == "meld_result") = [r]) :
    meld_faces_choice norm data =
      .ok ((if data.name_normalized == norm r.name
              || data.name_normalized == norm p0.name
            then p0 else p1), r) ∧
    ∃ d, meld_step norm icons fetch data = .ok d ∧ d.layout = "transform" :=
  ⟨meld_choice_eq norm data p0 p1 r hfront hback,
   ⟨_, meld_step_ok norm icons fetch data p0 p1 r hl hfront hback, rfl⟩⟩

/-- Witness for C3 at the concrete Urza/Mishra meld record, queried by
the first part's name. -/
theorem C3_meld_front_choice_witness :
    recMeld.layout = "meld" ∧
    recMeld.all_parts.filter (fun p => p.component == "meld_part") =
      [partUrza, partMishra] ∧
    recMeld.all_parts.filter (fun p => p.component == "meld_result") =
      [partUrzaMishra] ∧
    (meld_faces_choice normLower recMeld =
      .ok ((if recMeld.name_normalized == normLower partUrzaMishra.name
              || recMeld.name_normalized == normLower partUrza.name
            then partUrza else partMishra), partUrzaMishra) ∧
     ∃ d, meld_step normLower iconsMeld fetchConst recMeld = .ok d ∧
       d.layout = "transform") :=
  ⟨rfl, by decide, by decide,
   C3_meld_front_choice normLower iconsMeld fetchConst recMeld
     partUrza partMishra partUrzaMishra rfl (by decide) (by decide)⟩

/-- Applying the full classifier to an output of the classification
cascade on a two-face, non-meld record succeeds and leaves
`frame_effects` unchanged. -/
theorem classify_then_process (norm : String → String) (icons : String → Bool)
    (fetch : String → Face) (m : CardRec) (f0 f1 : Face)
    (hcf : m.card_faces = some [f0, f1]) (hml : m.layout ≠ "meld")
    (d : CardRec) (hd : classify_step norm m = .ok d) :
    ∃ d2, process_scryfall_data norm icons fetch d = .ok d2 ∧
      d2.frame_effects = d.frame_effects := by
  obtain ⟨d', hcl, hcf', hfe', hlay⟩ := classify_step_two norm m f0 f1 hcf
  rw [hcl] at hd
  injection hd with hd
  subst hd
  have hne : d'.layout ≠ "meld" := by
    rcases hlay with h | h | h | h | h
    · rw [h]; decide
    · rw [h]; decide
    · rw [h]; decide
    · rw [h]; decide
    · rw [h]; exact hml
  have hskip := meld_step_skip norm icons fetch d' hne
  obtain ⟨d2, hcl2, _, hfe2, _⟩ := classify_step_two norm d' f0 f1 (hcf'.trans hcf)
  refine ⟨d2, ?_, hfe2⟩
  unfold process_scryfall_data
  rw [hskip]
  exact hcl2

/-- Claim C7: the meld branch appends the meld icon to `frame_effects`
exactly when no existing entry is a transform icon (first conjunct, with
the marker then occurring exactly once), and re-running the classifier
on an already-processed record — whose layout is now `transform` — never
touches `frame_effects` again (second conjunct). -/
theorem C7_meld_icon_once (norm : String → String) (icons : String → Bool)
    (fetch : String → Face) (data : CardRec) (p0 p1 r : Part)
    (hl : data.layout = "meld")
    (hfront : data.all_parts.filter (fun p => p.component == "meld_part") = [p0, p1])
    (hback : data.all_parts.filter (fun p => p.component == "meld_result") = [r])
    (hm : icons MELD = true) :
    (∃ d, meld_step norm icons fetch data = .ok d ∧
      d.frame_effects = (if (data.frame_effects.getD []).any icons
          then data.frame_effects
          else some ((data.frame_effects.getD []) ++ [MELD])) ∧
      ((data.frame_effects.getD []).any icons = false →
        (d.frame_effects.getD []).count MELD = 1)) ∧
    (∀ d, process_scryfall_data norm icons fetch data = .ok d →
      ∃ d2, process_scryfall_data norm icons fetch d = .ok d2 ∧
        d2.frame_effects = d.frame_effects) := by
  have hstep := meld_step_ok norm icons fetch data p0 p1 r hl hfront hback
  constructor
  · refine ⟨_, hstep, rfl, ?_⟩
    intro hany
    show ((if (data.frame_effects.getD []).any icons = true then data.frame_effects
        else some ((data.frame_effects.getD []) ++ [MELD])).getD []).count MELD = 1
    rw [hany, if_neg Bool.false_ne_true]
    have hnot : MELD ∉ data.frame_effects.getD [] := by
      intro hmem
      have ha : (data.frame_effects.getD []).any icons = true :=
        List.any_eq_true.mpr ⟨MELD, hmem, hm⟩
      rw [ha] at hany
      cases hany
    have h0 : (data.frame_effects.getD []).count MELD = 0 :=
      List.count_eq_zero.mpr hnot
    simp [List.count_append, h0]
  · intro d hd
    unfold process_scryfall_data at hd
    rw [hstep] at hd
    exact classify_then_process norm icons fetch _ _ _ rfl
      (show ("transform" : String) ≠ "meld" from by decide) d hd

/-- Witness for C7 at the concrete Urza/Mishra meld record with no
pre-existing frame effects. -/
theorem C7_meld_icon_once_witness :
    recMeld.layout = "meld" ∧
    recMeld.all_parts.filter (fun p => p.component == "meld_part") =
      [partUrza, partMishra] ∧
    recMeld.all_parts.filter (fun p => p.component == "meld_result") =
      [partUrzaMishra] ∧
    iconsMeld MELD = true ∧
    ((∃ d, meld_step normLower iconsMeld fetchConst recMeld = .ok d ∧
      d.frame_effects = (if (recMeld.frame_effects.getD []).any iconsMeld
          then recMeld.frame_effects
          else some ((recMeld.frame_effects.getD []) ++ [MELD])) ∧
      ((recMeld.frame_effects.getD []).any iconsMeld = false →
        (d.frame_effects.getD []).count MELD = 1)) ∧
    (∀ d, process_scryfall_data normLower iconsMeld fetchConst recMeld = .ok d →
      ∃ d2, process_scryfall_data normLower iconsMeld fetchConst d = .ok d2 ∧
        d2.frame_effects = d.frame_effects)) :=
  ⟨rfl, by decide, by decide, rfl,
   C7_meld_icon_once normLower iconsMeld fetchConst recMeld
     partUrza partMishra partUrzaMishra rfl (by decide) (by decide) rfl⟩

/-- Claim C4 (counterexample): the spec says a `card_faces` record whose
selected face's type line contains "Planeswalker" ends as
`planeswalker_tf` when the layout was `transform`.  A type line that
also contains "Battle" falls through the later sequential checks and
ends as `battle` instead. -/
theorem C4_two_face_counterexample :
    process_scryfall_data normId iconsMeld fetchConst recPWBattle =
      .ok { recPWBattle with layout := "battle" } ∧
    ("battle" : String) ≠ "planeswalker_tf" :=
  ⟨rfl, by decide⟩

/-- Claim C4 (amended): for a non-meld record carrying `card_faces`,
when the selected face's type line contains "Planeswalker" and contains
neither "Saga" nor "Battle", classification yields `planeswalker_tf` if
the layout was `transform` and `planeswalker_mdfc` otherwise, returning
directly after the two-face branch — in particular the mutate and
single-face planeswalker checks are never consulted (the result holds
for arbitrary `keywords` and record `type_line`). -/
theorem C4_two_face_amended (norm : String → String) (icons : String → Bool)
    (fetch : String → Face) (data : CardRec) (f : Face)
    (hml : data.layout ≠ "meld")
    (hsel : faces_select norm data = .ok f)
    (hpw : substr ("Planeswalker") f.type_line = true)
    (hsaga : substr ("Saga") f.type_line = false)
    (hbattle : substr ("Battle") f.type_line = false) :
    process_scryfall_data norm icons fetch data =
      .ok { data with layout :=
        if data.layout == "transform" then "planeswalker_tf"
        else "planeswalker_mdfc" } := by
  have hskip := meld_step_skip norm icons fetch data hml
  have hcf : ∃ faces, data.card_faces = some faces := by
    cases hc : data.card_faces with
    | none =>
      unfold faces_select at hsel
      rw [hc] at hsel
      exact absurd hsel (by simp)
    | some faces => exact ⟨faces, rfl⟩
  obtain ⟨faces, hfaces⟩ := hcf
  unfold process_scryfall_data
  rw [hskip]
  show classify_step norm data = _
  unfold classify_step
  rw [hfaces, hsel]
  simp [hpw, hsaga, hbattle]

/-- Witness for C4 at a concrete transform planeswalker. -/
theorem C4_two_face_amended_witness :
    recPWTf.layout ≠ "meld" ∧
    faces_select normId recPWTf =
      .ok { object := "", name := "a", type_line := "Legendary Planeswalker" } ∧
    substr ("Planeswalker") "Legendary Planeswalker" = true ∧
    substr ("Saga") "Legendary Planeswalker" = false ∧
    substr ("Battle") "Legendary Planeswalker" = false ∧
    process_scryfall_data normId iconsMeld fetchConst recPWTf =
      .ok { recPWTf with layout :=
        if recPWTf.layout == "transform" then "planeswalker_tf"
        else "planeswalker_mdfc" } :=
  ⟨by decide, rfl, rfl, rfl, rfl,
   C4_two_face_amended normId iconsMeld fetchConst recPWTf
     { object := "", name := "a", type_line := "Legendary Planeswalker" }
     (by decide) rfl rfl rfl rfl⟩

/-! ### Filename-parser lemmas and claims -/

theorem not_mem_of_all (p : Char → Bool) (l : List Char)
    (h : ∀ c ∈ l, p c = true) (x : Char) (hx : p x = false) : x ∉ l := by
  intro hm
  rw [h x hm] at hx
  cases hx

theorem not_mem_tagOf (x op cl : Char) (cap : List Char)
    (h1 : x ≠ ' ') (h2 : x ≠ op) (h3 : x ≠ cl) (h4 : x ∉ cap) :
    x ∉ tagOf op cl cap := by
  intro hm
  simp only [tagOf, List.mem_cons, List.mem_append, List.not_mem_nil, or_false] at hm
  rcases hm with h | h | h | h
  · exact h1 h
  · exact h2 h
  · exact h4 h
  · exact h3 h

theorem findTag_skip (op cl : Char) (pre rest : List Char) (h : op ∉ pre) :
    findTag op cl (pre ++ rest) = findTag op cl rest := by
  induction pre with
  | nil => rfl
  | cons c t ih =>
    have hc : ¬(c == op) = true := by
      simp only [beq_iff_eq]
      intro he
      exact h (he ▸ List.mem_cons_self c t)
    show findTag op cl (c :: (t ++ rest)) = _
    simp only [findTag]
    rw [if_neg hc]
    exact ih (fun hm => h (List.mem_cons_of_mem c hm))

theorem takeUntil_hit (cl : Char) (cap rest : List Char) (h : cl ∉ cap) :
    takeUntil cl (cap ++ cl :: rest) = some cap := by
  induction cap with
  | nil => simp [takeUntil]
  | cons c t ih =>
    have hc : ¬(c == cl) = true := by
      simp only [beq_iff_eq]
      intro he
      exact h (he ▸ List.mem_cons_self c t)
    show takeUntil cl (c :: (t ++ cl :: rest)) = _
    simp only [takeUntil]
    rw [if_neg hc, ih (fun hm => h (List.mem_cons_of_mem c hm))]
    rfl

theorem dropRun_of_ne (c x : Char) (xs : List Char) (h : x ≠ c) :
    dropRun c (x :: xs) = x :: xs := by
  simp [dropRun, h]

theorem findTag_hit (op cl : Char) (cap rest : List Char) (hoc : op ≠ cl)
    (h1 : op ∉ cap) (h2 : cl ∉ cap) :
    findTag op cl (op :: (cap ++ cl :: rest)) = some cap := by
  have hdrop : dropRun op (cap ++ cl :: rest) = cap ++ cl :: rest := by
    cases cap with
    | nil => exact dropRun_of_ne op cl rest (Ne.symm hoc)
    | cons c t =>
      exact dropRun_of_ne op c (t ++ cl :: rest)
        (fun he => h1 (he ▸ List.mem_cons_self c t))
  simp only [findTag]
  split
  case isFalse hf => exact absurd (by simp) hf
  case isTrue _ =>
    rw [hdrop, takeUntil_hit cl cap rest h2]

theorem findTag_tag (op cl : Char) (pre cap post : List Char) (hop : op ≠ ' ')
    (hoc : op ≠ cl) (hpre : op ∉ pre) (h1 : op ∉ cap) (h2 : cl ∉ cap) :
    findTag op cl (pre ++ tagOf op cl cap ++ post) = some cap := by
  have he : pre ++ tagOf op cl cap ++ post
      = (pre ++ [' ']) ++ (op :: (cap ++ cl :: post)) := by
    simp [tagOf, List.append_assoc]
  rw [he, findTag_skip op cl (pre ++ [' ']) _ ?hmem,
    findTag_hit op cl cap post hoc h1 h2]
  case hmem =>
    intro hm
    rcases List.mem_append.mp hm with h | h
    · exact hpre h
    · simp only [List.mem_singleton] at h
      exact hop h

theorem findTag_at1 (op cl : Char) (nm cap t2 t3 tail : List Char)
    (hop : op ≠ ' ') (hoc : op ≠ cl) (hnm : op ∉ nm)
    (h1 : op ∉ cap) (h2 : cl ∉ cap) :
    findTag op cl (nm ++ tagOf op cl cap ++ t2 ++ t3 ++ tail) = some cap := by
  have he : nm ++ tagOf op cl cap ++ t2 ++ t3 ++ tail
      = nm ++ tagOf op cl cap ++ (t2 ++ t3 ++ tail) := by
    simp [List.append_assoc]
  rw [he]
  exact findTag_tag op cl nm cap _ hop hoc hnm h1 h2

theorem findTag_at2 (op cl : Char) (nm t1 cap t3 tail : List Char)
    (hop : op ≠ ' ') (hoc : op ≠ cl) (hnm : op ∉ nm) (ht1 : op ∉ t1)
    (h1 : op ∉ cap) (h2 : cl ∉ cap) :
    findTag op cl (nm ++ t1 ++ tagOf op cl cap ++ t3 ++ tail) = some cap := by
  have he : nm ++ t1 ++ tagOf op cl cap ++ t3 ++ tail
      = (nm ++ t1) ++ tagOf op cl cap ++ (t3 ++ tail) := by
    simp [List.append_assoc]
  rw [he]
  refine findTag_tag op cl (nm ++ t1) cap _ hop hoc ?_ h1 h2
  intro hm
  rcases List.mem_append.mp hm with h | h
  · exact hnm h
  · exact ht1 h

theorem findTag_at3 (op cl : Char) (nm t1 t2 cap tail : List Char)
    (hop : op ≠ ' ') (hoc : op ≠ cl) (hnm : op ∉ nm) (ht1 : op ∉ t1)
    (ht2 : op ∉ t2) (h1 : op ∉ cap) (h2 : cl ∉ cap) :
    findTag op cl (nm ++ t1 ++ t2 ++ tagOf op cl cap ++ tail) = some cap := by
  have he : nm ++ t1 ++ t2 ++ tagOf op cl cap ++ tail
      = (nm ++ t1 ++ t2) ++ tagOf op cl cap ++ tail := by
    simp [List.append_assoc]
  rw [he]
  refine findTag_tag op cl (nm ++ t1 ++ t2) cap _ hop hoc ?_ h1 h2
  intro hm
  rcases List.mem_append.mp hm with h | h
  · rcases List.mem_append.mp h with h' | h'
    · exact hnm h'
    · exact ht1 h'
  · exact ht2 h

theorem isOpener_eq_false_of_plain (c : Char) (h : plainNameChar c = true) :
    isOpener c = false := by
  unfold plainNameChar at h
  cases ho : isOpener c
  · rfl
  · rw [ho] at h
    exact absurd h (by decide)

theorem nameLead_sep (d : Char) (rest : List Char) (hd : isOpener d = true) :
    nameLead (' ' :: d :: rest) = [] := by
  simp only [nameLead]
  rw [if_pos (by simp [hd])]

theorem nameLead_concat (nm : List Char) (d : Char) (rest : List Char)
    (hnm : ∀ c ∈ nm, plainNameChar c = true) (hd : isOpener d = true) :
    nameLead (nm ++ ' ' :: d :: rest) = nm := by
  induction nm with
  | nil => exact nameLead_sep d rest hd
  | cons c t ih =>
    cases t with
    | nil =>
      show nameLead (c :: ' ' :: d :: rest) = [c]
      simp [nameLead, hd, show isOpener ' ' = false from by decide]
    | cons c2 t2 =>
      have hp2 : plainNameChar c2 = true := hnm c2 (by simp)
      show nameLead (c :: c2 :: (t2 ++ ' ' :: d :: rest)) = c :: c2 :: t2
      simp only [nameLead]
      rw [if_neg (by simp [isOpener_eq_false_of_plain c2 hp2])]
      exact congrArg (fun l => c :: l)
        (ih (fun x hx => hnm x (List.mem_cons_of_mem c hx)))

theorem take_stem (pre ext : List Char) (h : ext.length = 3) :
    (pre ++ '.' :: ext).take ((pre ++ '.' :: ext).length - 4) = pre := by
  have hl : (pre ++ '.' :: ext).length = pre.length + 4 := by
    simp [List.length_append, h]
  rw [hl, Nat.add_sub_cancel]
  exact List.take_left pre ('.' :: ext)

theorem perm_pair {α : Type} {a b : α} {q : List α} (h : q.Perm [a, b]) :
    q = [a, b] ∨ q = [b, a] := by
  have hl := h.length_eq
  cases q with
  | nil => simp at hl
  | cons u q1 =>
    cases q1 with
    | nil => simp at hl
    | cons v q2 =>
      cases q2 with
      | cons w q3 => simp at hl
      | nil =>
        have hu : u ∈ [a, b] := h.subset (by simp)
        rcases (by simpa using hu : u = a ∨ u = b) with hu | hu
        · subst hu
          have hv := (List.perm_singleton).mp (h.cons_inv)
          simp only [List.cons.injEq, and_true] at hv
          subst hv
          exact Or.inl rfl
        · subst hu
          have h2 : [u, v].Perm [u, a] := h.trans (List.Perm.swap u a [])
          have hv := (List.perm_singleton).mp (h2.cons_inv)
          simp only [List.cons.injEq, and_true] at hv
          subst hv
          exact Or.inr rfl

theorem perm_three {α : Type} {a b c : α} {p : List α} (h : p.Perm [a, b, c]) :
    p = [a, b, c] ∨ p = [a, c, b] ∨ p = [b, a, c] ∨ p = [b, c, a] ∨
      p = [c, a, b] ∨ p = [c, b, a] := by
  have hl := h.length_eq
  cases p with
  | nil => simp at hl
  | cons u p1 =>
    cases p1 with
    | nil => simp at hl
    | cons v p2 =>
      cases p2 with
      | nil => simp at hl
      | cons w p3 =>
        cases p3 with
        | cons x p4 => simp at hl
        | nil =>
          have hu : u ∈ [a, b, c] := h.subset (by simp)
          rcases (by simpa using hu : u = a ∨ u = b ∨ u = c) with hu | hu | hu
          · subst hu
            rcases perm_pair h.cons_inv with h2 | h2 <;>
              simp only [List.cons.injEq, and_true] at h2 <;>
              obtain ⟨rfl, rfl⟩ := h2
            · exact Or.inl rfl
            · exact Or.inr (Or.inl rfl)
          · subst hu
            have h' : [u, v, w].Perm [u, a, c] :=
              h.trans (List.Perm.swap u a [c])
            rcases perm_pair h'.cons_inv with h2 | h2 <;>
              simp only [List.cons.injEq, and_true] at h2 <;>
              obtain ⟨rfl, rfl⟩ := h2
            · exact Or.inr (Or.inr (Or.inl rfl))
            · exact Or.inr (Or.inr (Or.inr (Or.inl rfl)))
          · subst hu
            have hAB : [a, b, u].Perm [u, a, b] :=
              ((List.Perm.swap u b []).cons a).trans (List.Perm.swap u a [b])
            have h' : [u, v, w].Perm [u, a, b] := h.trans hAB
            rcases perm_pair h'.cons_inv with h2 | h2 <;>
              simp only [List.cons.injEq, and_true] at h2 <;>
              obtain ⟨rfl, rfl⟩ := h2
            · exact Or.inr (Or.inr (Or.inr (Or.inr (Or.inl rfl))))
            · exact Or.inr (Or.inr (Or.inr (Or.inr (Or.inr rfl))))

/-- Evaluation of `retrieve_card_info` on a filename assembled from a plain name,
three tag blocks and a three-character extension, given the three tag
extractions and the shape of the first tag block. -/
theorem retrieve_eq_of_tags (nm cr ar st ext t1 t2 t3 : List Char)
    (hnm : ∀ c ∈ nm, plainNameChar c = true)
    (hext : ext.length = 3)
    (hc : findTag '{' '}' (nm ++ t1 ++ t2 ++ t3 ++ '.' :: ext) = some cr)
    (ha : findTag '(' ')' (nm ++ t1 ++ t2 ++ t3 ++ '.' :: ext) = some ar)
    (hs : findTag '[' ']' (nm ++ t1 ++ t2 ++ t3 ++ '.' :: ext) = some st)
    (d : Char) (rest : List Char) (hd : isOpener d = true)
    (hsplit : t1 ++ (t2 ++ t3) = ' ' :: d :: rest) :
    retrieve_card_info (nm ++ t1 ++ t2 ++ t3 ++ '.' :: ext) =
      { name := nm, artist := some ar, set := some st, creator := some cr } := by
  unfold retrieve_card_info
  rw [hc, ha, hs, take_stem (nm ++ t1 ++ t2 ++ t3) ext hext]
  have hnmEq : nameLead (nm ++ t1 ++ t2 ++ t3) = nm := by
    rw [List.append_assoc, List.append_assoc, hsplit]
    exact nameLead_concat nm d rest hnm hd
  rw [hnmEq]

/-- Claim C9 (amended): for every filename assembled from a plain name,
the three bracketed tags in any order, and a three-character extension,
`retrieve_card_info` recovers the name, the creator and the artist as
the tag contents — but the `set` field is the *entire* bracketed tag
(e.g. `SET123`), and no separate collector number is extracted (the
returned dictionary has no number field at all). -/
theorem C9_parser_amended (nm cr ar st ext t1 t2 t3 : List Char)
    (hperm : [t1, t2, t3].Perm
      [tagOf '{' '}' cr, tagOf '(' ')' ar, tagOf '[' ']' st])
    (hnm : ∀ c ∈ nm, plainNameChar c = true)
    (hcr : ∀ c ∈ cr, plainTagChar c = true)
    (har : ∀ c ∈ ar, plainTagChar c = true)
    (hst : ∀ c ∈ st, plainTagChar c = true)
    (hext : ext.length = 3) :
    retrieve_card_info (nm ++ t1 ++ t2 ++ t3 ++ '.' :: ext) =
      { name := nm, artist := some ar, set := some st, creator := some cr } := by
  have hnmC : '{' ∉ nm := not_mem_of_all plainNameChar nm hnm '{' (by decide)
  have hnmA : '(' ∉ nm := not_mem_of_all plainNameChar nm hnm '(' (by decide)
  have hnmS : '[' ∉ nm := not_mem_of_all plainNameChar nm hnm '[' (by decide)
  have hcr1 : '{' ∉ cr := not_mem_of_all plainTagChar cr hcr '{' (by decide)
  have hcr2 : '}' ∉ cr := not_mem_of_all plainTagChar cr hcr '}' (by decide)
  have hcrA : '(' ∉ cr := not_mem_of_all plainTagChar cr hcr '(' (by decide)
  have hcrS : '[' ∉ cr := not_mem_of_all plainTagChar cr hcr '[' (by decide)
  have har1 : '(' ∉ ar := not_mem_of_all plainTagChar ar har '(' (by decide)
  have har2 : ')' ∉ ar := not_mem_of_all plainTagChar ar har ')' (by decide)
  have harC : '{' ∉ ar := not_mem_of_all plainTagChar ar har '{' (by decide)
  have harS : '[' ∉ ar := not_mem_of_all plainTagChar ar har '[' (by decide)
  have hst1 : '[' ∉ st := not_mem_of_all plainTagChar st hst '[' (by decide)
  have hst2 : ']' ∉ st := not_mem_of_all plainTagChar st hst ']' (by decide)
  have hstC : '{' ∉ st := not_mem_of_all plainTagChar st hst '{' (by decide)
  have hstA : '(' ∉ st := not_mem_of_all plainTagChar st hst '(' (by decide)
  have htAC : '{' ∉ tagOf '(' ')' ar :=
    not_mem_tagOf '{' '(' ')' ar (by decide) (by decide) (by decide) harC
  have htSC : '{' ∉ tagOf '[' ']' st :=
    not_mem_tagOf '{' '[' ']' st (by decide) (by decide) (by decide) hstC
  have htCA : '(' ∉ tagOf '{' '}' cr :=
    not_mem_tagOf '(' '{' '}' cr (by decide) (by decide) (by decide) hcrA
  have htSA : '(' ∉ tagOf '[' ']' st :=
    not_mem_tagOf '(' '[' ']' st (by decide) (by decide) (by decide) hstA
  have htCS : '[' ∉ tagOf '{' '}' cr :=
    not_mem_tagOf '[' '{' '}' cr (by decide) (by decide) (by decide) hcrS
  have htAS : '[' ∉ tagOf '(' ')' ar :=
    not_mem_tagOf '[' '(' ')' ar (by decide) (by decide) (by decide) harS
  rcases perm_three hperm with hp | hp | hp | hp | hp | hp
  all_goals simp only [List.cons.injEq, and_true] at hp
  all_goals obtain ⟨rfl, rfl, rfl⟩ := hp
  · exact retrieve_eq_of_tags nm cr ar st ext _ _ _ hnm hext
      (findTag_at1 '{' '}' nm cr _ _ _ (by decide) (by decide) hnmC hcr1 hcr2)
      (findTag_at2 '(' ')' nm _ ar _ _ (by decide) (by decide) hnmA htCA har1 har2)
      (findTag_at3 '[' ']' nm _ _ st _ (by decide) (by decide) hnmS htCS htAS hst1 hst2)
      '{' _ (by decide) rfl
  · exact retrieve_eq_of_tags nm cr ar st ext _ _ _ hnm hext
      (findTag_at1 '{' '}' nm cr _ _ _ (by decide) (by decide) hnmC hcr1 hcr2)
      (findTag_at3 '(' ')' nm _ _ ar _ (by decide) (by decide) hnmA htCA htSA har1 har2)
      (findTag_at2 '[' ']' nm _ st _ _ (by decide) (by decide) hnmS htCS hst1 hst2)
      '{' _ (by decide) rfl
  · exact retrieve_eq_of_tags nm cr ar st ext _ _ _ hnm hext
      (findTag_at2 '{' '}' nm _ cr _ _ (by decide) (by decide) hnmC htAC hcr1 hcr2)
      (findTag_at1 '(' ')' nm ar _ _ _ (by decide) (by decide) hnmA har1 har2)
      (findTag_at3 '[' ']' nm _ _ st _ (by decide) (by decide) hnmS htAS htCS hst1 hst2)
      '(' _ (by decide) rfl
  · exact retrieve_eq_of_tags nm cr ar st ext _ _ _ hnm hext
      (findTag_at3 '{' '}' nm _ _ cr _ (by decide) (by decide) hnmC htAC htSC hcr1 hcr2)
      (findTag_at1 '(' ')' nm ar _ _ _ (by decide) (by decide) hnmA har1 har2)
      (findTag_at2 '[' ']' nm _ st _ _ (by decide) (by decide) hnmS htAS hst1 hst2)
      '(' _ (by decide) rfl
  · exact retrieve_eq_of_tags nm cr ar st ext _ _ _ hnm hext
      (findTag_at2 '{' '}' nm _ cr _ _ (by decide) (by decide) hnmC htSC hcr1 hcr2)
      (findTag_at3 '(' ')' nm _ _ ar _ (by decide) (by decide) hnmA htSA htCA har1 har2)
      (findTag_at1 '[' ']' nm st _ _ _ (by decide) (by decide) hnmS hst1 hst2)
      '[' _ (by decide) rfl
  · exact retrieve_eq_of_tags nm cr ar st ext _ _ _ hnm hext
      (findTag_at3 '{' '}' nm _ _ cr _ (by decide) (by decide) hnmC htSC htAC hcr1 hcr2)
      (findTag_at2 '(' ')' nm _ ar _ _ (by decide) (by decide) hnmA htSA har1 har2)
      (findTag_at1 '[' ']' nm st _ _ _ (by decide) (by decide) hnmS hst1 hst2)
      '[' _ (by decide) rfl

/-- Claim C9 (counterexample): the spec says the parser recovers
`set="SET"` and `number="123"` from the tag `[SET123]`.  The parser in
proxyshop/render.py returns the whole tag contents `"SET123"` as the set
(and has no number field at all). -/
theorem C9_parser_counterexample :
    (retrieve_card_info
      (String.toList ("Name {Creator} (Artist) [SET123].png"))).set =
      some (String.toList ("SET123")) ∧
    (retrieve_card_info
      (String.toList ("Name {Creator} (Artist) [SET123].png"))).set ≠
      some (String.toList ("SET")) :=
  ⟨by decide, by decide⟩

/-- Witness for the amended C9 at the concrete filename
`Name {Creator} (Artist) [SET123].png`. -/
theorem C9_parser_amended_witness :
    ([tagOf '{' '}' (String.toList ("Creator")),
      tagOf '(' ')' (String.toList ("Artist")),
      tagOf '[' ']' (String.toList ("SET123"))].Perm
      [tagOf '{' '}' (String.toList ("Creator")),
       tagOf '(' ')' (String.toList ("Artist")),
       tagOf '[' ']' (String.toList ("SET123"))]) ∧
    (∀ c ∈ String.toList ("Name"), plainNameChar c = true) ∧
    (∀ c ∈ String.toList ("Creator"), plainTagChar c = true) ∧
    (∀ c ∈ String.toList ("Artist"), plainTagChar c = true) ∧
    (∀ c ∈ String.toList ("SET123"), plainTagChar c = true) ∧
    (String.toList ("png")).length = 3 ∧
    retrieve_card_info (String.toList ("Name") ++
        tagOf '{' '}' (String.toList ("Creator")) ++
        tagOf '(' ')' (String.toList ("Artist")) ++
        tagOf '[' ']' (String.toList ("SET123")) ++
        '.' :: String.toList ("png")) =
      { name := String.toList ("Name")
      , artist := some (String.toList ("Artist"))
      , set := some (String.toList ("SET123"))
      , creator := some (String.toList ("Creator")) } :=
  ⟨List.Perm.refl _, by decide, by decide, by decide, by decide, by decide,
   C9_parser_amended (String.toList ("Name")) (String.toList ("Creator"))
     (String.toList ("Artist")) (String.toList ("SET123"))
     (String.toList ("png")) _ _ _ (List.Perm.refl _)
     (by decide) (by decide) (by decide) (by decide) (by decide)⟩

/-- Claim C10: when the parsed name is a basic-land name, the basic-land
short circuit of `render` raises an uncaught `AttributeError` whenever
the filename carries no set tag (`card['set'].upper()` on `None`), and
succeeds — building the `BasicLand` layout with the uppercased set —
exactly when a set tag is present. -/
theorem C10_basic_land_set (basicLands : List (List Char)) (fn : List Char)
    (hb : (retrieve_card_info fn).name ∈ basicLands) :
    ((retrieve_card_info fn).set = none →
      render_basic_step basicLands fn = some (.error ())) ∧
    (∀ s, (retrieve_card_info fn).set = some s →
      render_basic_step basicLands fn =
        some (.ok { name := (retrieve_card_info fn).name
                  , artist := (retrieve_card_info fn).artist
                  , set := s.map Char.toUpper })) := by
  constructor
  · intro h
    unfold render_basic_step
    rw [if_pos hb, h]
  · intro s h
    unfold render_basic_step
    rw [if_pos hb, h]

/-- Witness for C10: the basic land `Island.png` carries no set tag, and
the short circuit fails; `Island [ISD].png` carries one, and it
succeeds. -/
theorem C10_basic_land_set_witness :
    (retrieve_card_info (String.toList ("Island.png"))).name ∈
      [String.toList ("Island")] ∧
    (retrieve_card_info (String.toList ("Island.png"))).set = none ∧
    render_basic_step [String.toList ("Island")]
      (String.toList ("Island.png")) = some (.error ()) :=
  ⟨by decide, by decide,
   (C10_basic_land_set [String.toList ("Island")]
     (String.toList ("Island.png")) (by decide)).1 (by decide)⟩

end Proxyshop
